import Mathlib

/-!
Verification of the notebook batch runner `run_note.py`.

The script partitions a configured list of notebook paths into a sequential
subset (`NOTEBOOKS[:-2]`) and a parallel subset (`NOTEBOOKS[-2:]`), executes
the sequential subset one at a time (halting the whole batch on the first
failure with exit status 1), then executes the parallel subset on a process
pool of size `min(2, len(par_part))`, draining every future and exiting with
status 1 when any parallel task failed and `ALLOW_ERRORS` is false.  Each
notebook execution (`run_notebook`) checks file existence, loads the document,
runs the execution engine, and persists exactly one output copy:
`<stem>_executed.ipynb` on success, `<stem>_FAILED.ipynb` on a cell-execution
error (re-raised afterwards); other errors propagate with no output written.

The embedding below models file-system paths as a flag (absolute or not) plus
a list of components, the execution engine as an abstract environment mapping
each path to an outcome, and the observable behaviour of the script as a
trace of events (existence checks, reads, engine invocations, directory
creations, file writes) together with the process exit status.
-/

namespace RunNote

/-- A file-system path: whether it is absolute, and its components. -/
structure FPath where
  absolute : Bool
  parts : List String
deriving DecidableEq, Repr

/-- Split a character list on slashes, accumulating the current component in
reverse. -/
def splitSlashAux : List Char → List Char → List String
  | [], acc => [String.mk acc.reverse]
  | c :: cs, acc =>
      if c = '/' then String.mk acc.reverse :: splitSlashAux cs []
      else splitSlashAux cs (c :: acc)

/-- Whether a path string is absolute (starts with a slash). -/
def isAbsoluteStr (s : String) : Bool :=
  match s.toList with
  | '/' :: _ => true
  | _ => false

/-- Parse a path string the way `pathlib` would view it: absolute when it
starts with a slash, components the non-empty slash-separated pieces. -/
def parsePath (s : String) : FPath :=
  ⟨isAbsoluteStr s, (splitSlashAux s.toList []).filter (fun t => t ≠ "")⟩

/-- Mirrors `(base_dir / nb).resolve() if not Path(nb).is_absolute() else Path(nb)`
(lines 101 and 114): an absolute entry is passed unchanged, a relative entry is
joined onto the base directory (the process current working directory).
`.resolve()`'s symlink/dot normalisation is not modelled: the base directory is
absolute, so joining already yields an absolute path. -/
def resolveEntry (base : FPath) (nb : FPath) : FPath :=
  if nb.absolute then nb else ⟨base.absolute, base.parts ++ nb.parts⟩

/-- The final path component (Python `nb_path.name` for the purposes of
`nb_path.stem`). -/
def fileName (p : FPath) : String :=
  p.parts.getLastD ""

/-- Drop the last extension from a file name, on the character list:
remove everything from the last dot on, except when that dot is the first
character (Python `Path.stem` keeps the name of dot-files whole). -/
def stemChars (cs : List Char) : List Char :=
  match (cs.reverse).findIdx? (fun c => c = '.') with
  | none => cs
  | some i => if i = cs.length - 1 then cs else ((cs.reverse).drop (i + 1)).reverse

/-- Python `Path.stem` on a file name string. -/
def stemOf (s : String) : String :=
  String.mk (stemChars s.toList)

/-- The configured notebook list (module constant `NOTEBOOKS`). -/
def NOTEBOOKS : List String :=
  ["code/03a_train_test_split.ipynb",
   "code/03b_feature_extraction.ipynb",
   "code/03c_feature_engineering.ipynb",
   "code/04a_modeling_lr.ipynb",
   "code/04b_modeling_lr.ipynb"]

/-- Module constant `OUT_DIRNAME`. -/
def OUT_DIRNAME : String := "executed"

/-- Module constant `ALLOW_ERRORS` (the error-tolerance flag). -/
def ALLOW_ERRORS : Bool := false

/-- Module constant `KERNEL_NAME`. -/
def KERNEL_NAME : String := "python3"

/-- Module constant `TIMEOUT_SEC`. -/
def TIMEOUT_SEC : Nat := 3600

/-- `NOTEBOOKS[:-2]` (line 94): both branches of the conditional compute the
same slice, everything before the last two entries.  Python's `xs[:-2]` is the
first `max(0, len(xs) - 2)` entries, i.e. `take (length - 2)` with truncated
subtraction. -/
def seqPart (xs : List String) : List String :=
  xs.take (xs.length - 2)

/-- `NOTEBOOKS[-2:]` (line 95): the last two entries, or the whole list when it
has fewer than two.  Python's `xs[-2:]` is `drop (max(0, len(xs) - 2))`. -/
def parPart (xs : List String) : List String :=
  xs.drop (xs.length - 2)

/-- `min(2, len(par_part))` (line 112): the worker-pool size. -/
def poolSize (xs : List String) : Nat :=
  min 2 (parPart xs).length

/-- What the execution engine does on a given notebook document. -/
inductive EngineOutcome where
  | success
  | cellError
  | otherError
deriving DecidableEq, Repr

/-- The environment the script runs against: which files exist, and how the
engine behaves on each notebook. -/
structure Env where
  fileExists : FPath → Bool
  engine : FPath → EngineOutcome

/-- Errors `run_notebook` can raise to its caller. -/
inductive RunError where
  | notFound
  | cellExecutionError
  | otherError
deriving DecidableEq, Repr

/-- Observable file-system / engine events, in order of occurrence. -/
inductive Event where
  | statted (p : FPath)
  | fileRead (p : FPath)
  | engineInvoked (p : FPath)
  | dirCreated (p : FPath)
  | fileWritten (p : FPath)
deriving DecidableEq, Repr

/-- `out_dir / f"{nb_path.stem}_executed.ipynb"` (line 78). -/
def executedPath (outDir : FPath) (nbPath : FPath) : FPath :=
  ⟨outDir.absolute, outDir.parts ++ [stemOf (fileName nbPath) ++ "_executed.ipynb"]⟩

/-- `out_dir / f"{nb_path.stem}_FAILED.ipynb"` (line 70). -/
def failedPath (outDir : FPath) (nbPath : FPath) : FPath :=
  ⟨outDir.absolute, outDir.parts ++ [stemOf (fileName nbPath) ++ "_FAILED.ipynb"]⟩

/-- `run_notebook(nb_path, out_dir)` (lines 44-83): check existence, read the
document, run the engine; on success create the output directory and write the
`_executed` copy, returning its path; on a cell-execution error create the
output directory, write the `_FAILED` copy and re-raise; any other engine
error propagates unchanged with nothing written. -/
def runNotebook (env : Env) (nbPath : FPath) (outDir : FPath) :
    List Event × Except RunError FPath :=
  if env.fileExists nbPath then
    match env.engine nbPath with
    | .success =>
        ([.statted nbPath, .fileRead nbPath, .engineInvoked nbPath,
          .dirCreated outDir, .fileWritten (executedPath outDir nbPath)],
         .ok (executedPath outDir nbPath))
    | .cellError =>
        ([.statted nbPath, .fileRead nbPath, .engineInvoked nbPath,
          .dirCreated outDir, .fileWritten (failedPath outDir nbPath)],
         .error .cellExecutionError)
    | .otherError =>
        ([.statted nbPath, .fileRead nbPath, .engineInvoked nbPath],
         .error .otherError)
  else
    ([.statted nbPath], .error .notFound)

/-- Whether an `Except` result is an error (any exception in Python terms). -/
def isErr {ε α : Type} : Except ε α → Bool
  | .error _ => true
  | .ok _ => false

/-- The sequential phase (lines 100-106): run each notebook in order; on the
first raised exception of any kind stop and report exit status 1
(`sys.exit(1)`); otherwise continue with the rest. -/
def runSeq (env : Env) (base : FPath) (outDir : FPath) :
    List String → List Event × Option Nat
  | [] => ([], none)
  | nb :: rest =>
      let r := runNotebook env (resolveEntry base (parsePath nb)) outDir
      if isErr r.2 then (r.1, some 1)
      else (r.1 ++ (runSeq env base outDir rest).1, (runSeq env base outDir rest).2)

/-- The output directory `base_dir / OUT_DIRNAME` (line 91). -/
def outDirOf (base : FPath) : FPath :=
  ⟨base.absolute, base.parts ++ [OUT_DIRNAME]⟩

/-- The events of the parallel phase (lines 109-124): every submitted task is
run to completion and drained, whatever the outcomes of its siblings. -/
def parEvents (env : Env) (base : FPath) (par : List String) : List Event :=
  List.flatten (par.map
    (fun nb => (runNotebook env (resolveEntry base (parsePath nb)) (outDirOf base)).1))

/-- The `had_error` flag of the parallel phase (lines 117-124): whether any
drained future raised. -/
def parHadError (env : Env) (base : FPath) (par : List String) : Bool :=
  par.any
    (fun nb => isErr (runNotebook env (resolveEntry base (parsePath nb)) (outDirOf base)).2)

/-- `main()` (lines 85-129) as a function from the configured list, the current
working directory and the error-tolerance flag to the event trace and the
process exit status (0 when `main` returns normally).  The parallel phase runs
every submitted task to completion regardless of sibling failures (the script
drains `as_completed` over all futures); completion-order interleaving of the
two tasks is not modelled, their events are concatenated in submission order. -/
def mainRun (env : Env) (notebooks : List String) (base : FPath)
    (allowErrors : Bool) : List Event × Nat :=
  if notebooks = [] then ([], 2)
  else
    match runSeq env base (outDirOf base) (seqPart notebooks) with
    | (seqEvs, some code) => (seqEvs, code)
    | (seqEvs, none) =>
        if parPart notebooks = [] then (seqEvs, 0)
        else
          (seqEvs ++ parEvents env base (parPart notebooks),
           if parHadError env base (parPart notebooks) && !allowErrors
           then 1 else 0)

/-- The files written during a trace. -/
def writtenFiles (evs : List Event) : List FPath :=
  evs.filterMap (fun e => match e with | .fileWritten p => some p | _ => none)

/-- The paths on which `run_notebook` was started during a trace (every call
begins with the existence check). -/
def attemptedPaths (evs : List Event) : List FPath :=
  evs.filterMap (fun e => match e with | .statted p => some p | _ => none)

/-- The paths on which the engine was invoked during a trace. -/
def enginePaths (evs : List Event) : List FPath :=
  evs.filterMap (fun e => match e with | .engineInvoked p => some p | _ => none)

/-- A sample environment in which every file exists and every execution
succeeds. -/
def envAllOk : Env := ⟨fun _ => true, fun _ => .success⟩

/-- A sample environment in which no file exists. -/
def envNone : Env := ⟨fun _ => false, fun _ => .success⟩

/-- A sample notebook path. -/
def samplePath : FPath := ⟨true, ["nb.ipynb"]⟩

/-- A sample output directory. -/
def sampleOut : FPath := ⟨true, ["out"]⟩

/-- Current working directory used by the sample runs. -/
def base0 : FPath := ⟨true, ["home"]⟩

/-- A sample environment in which every file exists and exactly one notebook
(the resolved `a.ipynb`) raises a cell-execution error. -/
def envOneFail : Env :=
  ⟨fun _ => true,
   fun p => if p = resolveEntry base0 (parsePath "a.ipynb") then .cellError else .success⟩

/-- A result is no error exactly when it is a returned value. -/
theorem isErr_eq_false {ε α : Type} (r : Except ε α) :
    isErr r = false ↔ ∃ v, r = .ok v := by
  cases r <;> simp [isErr]

/-- A result is an error exactly when it is a raised exception. -/
theorem isErr_eq_true {ε α : Type} (r : Except ε α) :
    isErr r = true ↔ ∃ e, r = .error e := by
  cases r <;> simp [isErr]

/-- The existence checks of a concatenated trace. -/
theorem attemptedPaths_append (a b : List Event) :
    attemptedPaths (a ++ b) = attemptedPaths a ++ attemptedPaths b := by
  simp [attemptedPaths, List.filterMap_append]

/-- One `run_notebook` call checks existence of exactly its own path. -/
theorem attemptedPaths_runNotebook (env : Env) (p d : FPath) :
    attemptedPaths (runNotebook env p d).1 = [p] := by
  cases hex : env.fileExists p <;> cases heng : env.engine p <;>
    simp [runNotebook, hex, heng, attemptedPaths]

/-- Any existence-check event of a `run_notebook` call concerns its path. -/
theorem statted_mem_runNotebook (env : Env) (q d p : FPath)
    (h : Event.statted p ∈ (runNotebook env q d).1) : p = q := by
  cases hex : env.fileExists q <;> cases heng : env.engine q <;>
    simp [runNotebook, hex, heng] at h <;> exact h

/-- Every `run_notebook` call records the existence check on its path. -/
theorem statted_self_mem (env : Env) (p d : FPath) :
    Event.statted p ∈ (runNotebook env p d).1 := by
  cases hex : env.fileExists p <;> cases heng : env.engine p <;>
    simp [runNotebook, hex, heng]

/-- A successfully returned path was written during the call. -/
theorem runNotebook_ok_written (env : Env) (p d v : FPath)
    (h : (runNotebook env p d).2 = .ok v) :
    Event.fileWritten v ∈ (runNotebook env p d).1 := by
  cases hex : env.fileExists p <;> cases heng : env.engine p <;>
    (simp [runNotebook, hex, heng] at h ⊢; all_goals simp [← h])

/-- The existence checks of a straight run over a list of notebooks are the
resolved paths, in order. -/
theorem attemptedPaths_flat_runs (env : Env) (base outDir : FPath) (l : List String) :
    attemptedPaths (List.flatten (l.map
      (fun nb => (runNotebook env (resolveEntry base (parsePath nb)) outDir).1))) =
      l.map (fun nb => resolveEntry base (parsePath nb)) := by
  induction l with
  | nil => rfl
  | cons nb l ih =>
      simp only [List.map_cons, List.flatten_cons, attemptedPaths_append,
        attemptedPaths_runNotebook, ih]
      rfl

/-- When every notebook of the sequential subset succeeds, the sequential
phase runs them all in order and reports no exit. -/
theorem runSeq_all_ok (env : Env) (base outDir : FPath) (ns : List String)
    (hok : ∀ nb ∈ ns,
      isErr (runNotebook env (resolveEntry base (parsePath nb)) outDir).2 = false) :
    runSeq env base outDir ns =
      (List.flatten (ns.map
        (fun nb => (runNotebook env (resolveEntry base (parsePath nb)) outDir).1)),
       none) := by
  induction ns with
  | nil => rfl
  | cons nb rest ih =>
      have h1 := hok nb (by simp)
      have h2 := ih (fun x hx => hok x (by simp [hx]))
      simp [runSeq, h1, h2]

/-- When the notebooks before `bad` succeed and `bad` raises, the sequential
phase runs exactly them and exits with status 1. -/
theorem runSeq_halts (env : Env) (base outDir : FPath) (good : List String)
    (bad : String) (rest : List String)
    (hok : ∀ nb ∈ good,
      isErr (runNotebook env (resolveEntry base (parsePath nb)) outDir).2 = false)
    (hfail : isErr (runNotebook env (resolveEntry base (parsePath bad)) outDir).2 = true) :
    runSeq env base outDir (good ++ bad :: rest) =
      (List.flatten ((good ++ [bad]).map
        (fun nb => (runNotebook env (resolveEntry base (parsePath nb)) outDir).1)),
       some 1) := by
  induction good with
  | nil => simp [runSeq, hfail]
  | cons nb g ih =>
      have h1 := hok nb (by simp)
      have h2 := ih (fun x hx => hok x (by simp [hx]))
      simp [runSeq, h1, h2]

/-- The parallel subset of a non-empty list is non-empty. -/
theorem parPart_ne_nil (xs : List String) (h : xs ≠ []) : parPart xs ≠ [] := by
  intro hc
  have hlen : (parPart xs).length = 0 := by rw [hc]; rfl
  have h0 : xs.length ≠ 0 := by
    intro h0
    exact h (List.eq_nil_of_length_eq_zero h0)
  simp only [parPart, List.length_drop] at hlen
  omega

/-- Any existence check during the sequential phase concerns the resolved
path of one of its notebooks. -/
theorem statted_runSeq (env : Env) (base outDir : FPath) (ns : List String) (p : FPath)
    (h : Event.statted p ∈ (runSeq env base outDir ns).1) :
    ∃ nb ∈ ns, p = resolveEntry base (parsePath nb) := by
  induction ns with
  | nil => simp [runSeq] at h
  | cons nb rest ih =>
      simp only [runSeq] at h
      by_cases hc :
          isErr (runNotebook env (resolveEntry base (parsePath nb)) outDir).2 = true
      · rw [if_pos hc] at h
        exact ⟨nb, by simp, statted_mem_runNotebook env _ _ p h⟩
      · rw [if_neg hc] at h
        rcases List.mem_append.mp h with h1 | h2
        · exact ⟨nb, by simp, statted_mem_runNotebook env _ _ p h1⟩
        · obtain ⟨x, hx, hpx⟩ := ih h2
          exact ⟨x, by simp [hx], hpx⟩

/-- Any existence check during the parallel phase concerns the resolved path
of one of its notebooks. -/
theorem statted_parEvents (env : Env) (base : FPath) (par : List String) (p : FPath)
    (h : Event.statted p ∈ parEvents env base par) :
    ∃ nb ∈ par, p = resolveEntry base (parsePath nb) := by
  simp only [parEvents, List.mem_flatten, List.mem_map] at h
  obtain ⟨l, ⟨nb, hnb, hl⟩, hmem⟩ := h
  subst hl
  exact ⟨nb, hnb, statted_mem_runNotebook env _ _ p hmem⟩

/-- Resolution against an absolute base always yields an absolute path. -/
theorem resolveEntry_absolute (base q : FPath) (hbase : base.absolute = true) :
    (resolveEntry base q).absolute = true := by
  by_cases h : q.absolute <;> simp [resolveEntry, h, hbase]

/-- Two paths in the same directory with different final names differ. -/
theorem outName_ne (b : Bool) (l : List String) (x y : String) (h : x ≠ y) :
    (⟨b, l ++ [x]⟩ : FPath) ≠ ⟨b, l ++ [y]⟩ := by
  intro hc
  have hp := congrArg FPath.parts hc
  simp only [List.append_cancel_left_eq] at hp
  exact h (by simpa using hp)

/-- The `_executed` output path of a relative two-component entry resolved
against the base directory, in terms of its file name. -/
theorem executedPath_resolved (base : FPath) (c f : String) :
    executedPath (outDirOf base) (resolveEntry base ⟨false, [c, f]⟩) =
      ⟨base.absolute, (outDirOf base).parts ++ [stemOf f ++ "_executed.ipynb"]⟩ := by
  simp [executedPath, resolveEntry, outDirOf, fileName]

/-- The `_FAILED` output path of a relative two-component entry resolved
against the base directory, in terms of its file name. -/
theorem failedPath_resolved (base : FPath) (c f : String) :
    failedPath (outDirOf base) (resolveEntry base ⟨false, [c, f]⟩) =
      ⟨base.absolute, (outDirOf base).parts ++ [stemOf f ++ "_FAILED.ipynb"]⟩ := by
  simp [failedPath, resolveEntry, outDirOf, fileName]

/-- The two output paths of one notebook differ: the suffixed file names have
different lengths. -/
theorem executed_ne_failed (outDir nbPath : FPath) :
    executedPath outDir nbPath ≠ failedPath outDir nbPath := by
  intro h
  have hp : (executedPath outDir nbPath).parts = (failedPath outDir nbPath).parts :=
    congrArg FPath.parts h
  simp only [executedPath, failedPath] at hp
  have hs : stemOf (fileName nbPath) ++ "_executed.ipynb" =
      stemOf (fileName nbPath) ++ "_FAILED.ipynb" := by
    have := List.append_cancel_left hp
    simpa using this
  have hl := congrArg String.length hs
  have h1 : "_executed.ipynb".length = 15 := rfl
  have h2 : "_FAILED.ipynb".length = 13 := rfl
  simp only [String.length_append, h1, h2] at hl
  omega

end RunNote

namespace RunNote

/-- C9: the partition is lossless and order-preserving: sequential subset
followed by parallel subset is exactly the original list. -/
theorem partition_lossless (xs : List String) :
    seqPart xs ++ parPart xs = xs := by
  simp [seqPart, parPart]

/-- C1: the last `min 2 N` entries form the parallel subset and everything
before them the sequential subset; for `N ≥ 3` the sequential subset is the
first `N - 2` entries and the parallel subset the last two; for `N = 1` or
`N = 2` the sequential subset is empty and the parallel subset is the whole
list. -/
theorem partition_min_two (xs : List String) :
    seqPart xs = xs.take (xs.length - min 2 xs.length) ∧
    parPart xs = xs.drop (xs.length - min 2 xs.length) ∧
    (parPart xs).length = min 2 xs.length ∧
    (3 ≤ xs.length →
      seqPart xs = xs.take (xs.length - 2) ∧
      parPart xs = xs.drop (xs.length - 2)) ∧
    (xs.length = 1 ∨ xs.length = 2 →
      seqPart xs = [] ∧ parPart xs = xs) := by
  have hidx : xs.length - 2 = xs.length - min 2 xs.length := by omega
  refine ⟨by rw [seqPart, hidx], by rw [parPart, hidx], ?_, ?_, ?_⟩
  · simp only [parPart, List.length_drop]
    omega
  · intro _
    exact ⟨rfl, rfl⟩
  · intro h
    constructor
    · have : xs.length - 2 = 0 := by omega
      simp [seqPart, this]
    · have : xs.length - 2 = 0 := by omega
      simp [parPart, this]

/-- Witness for C1 at concrete lists of length 3 and 1. -/
theorem partition_min_two_witness :
    seqPart ["a", "b", "c"] = ["a", "b", "c"].take 1 ∧
    seqPart ["a"] = [] ∧ parPart ["a"] = ["a"] := by
  refine ⟨(partition_min_two ["a", "b", "c"]).2.2.2.1 (by decide) |>.1, ?_, ?_⟩
  · exact ((partition_min_two ["a"]).2.2.2.2 (Or.inl rfl)).1
  · exact ((partition_min_two ["a"]).2.2.2.2 (Or.inl rfl)).2

/-- C2: for a notebook whose file exists, execution writes exactly one output
file when it completes: the `_executed` copy exactly when the engine succeeds
(returned to the caller), the `_FAILED` copy exactly when the engine raises a
cell-execution error (persisted and then the error re-raised), never both; any
other engine error propagates with no output file written. -/
theorem runNotebook_exactly_one_output (env : Env) (nbPath outDir : FPath)
    (h : env.fileExists nbPath = true) :
    (env.engine nbPath = .success →
      writtenFiles (runNotebook env nbPath outDir).1 = [executedPath outDir nbPath] ∧
      (runNotebook env nbPath outDir).2 = .ok (executedPath outDir nbPath)) ∧
    (env.engine nbPath = .cellError →
      writtenFiles (runNotebook env nbPath outDir).1 = [failedPath outDir nbPath] ∧
      (runNotebook env nbPath outDir).2 = .error .cellExecutionError) ∧
    (env.engine nbPath = .otherError →
      writtenFiles (runNotebook env nbPath outDir).1 = [] ∧
      (runNotebook env nbPath outDir).2 = .error .otherError) ∧
    ¬(executedPath outDir nbPath ∈ writtenFiles (runNotebook env nbPath outDir).1 ∧
      failedPath outDir nbPath ∈ writtenFiles (runNotebook env nbPath outDir).1) := by
  have hne := executed_ne_failed outDir nbPath
  cases heng : env.engine nbPath <;>
    simp [runNotebook, h, heng, writtenFiles, hne, Ne.symm hne]

/-- Witness for C2: in the all-succeeding environment, the sample notebook
yields the `_executed` copy. -/
theorem runNotebook_exactly_one_output_witness :
    envAllOk.fileExists samplePath = true ∧
    (runNotebook envAllOk samplePath sampleOut).2 =
      .ok (executedPath sampleOut samplePath) :=
  ⟨rfl,
   ((runNotebook_exactly_one_output envAllOk samplePath sampleOut rfl).1 rfl).2⟩

/-- C5: when the notebook path does not resolve to an existing file, execution
fails with the not-found error right after the existence check: no read, no
engine invocation, no directory creation and no output file write occur. -/
theorem missing_file_no_output (env : Env) (nbPath outDir : FPath)
    (h : env.fileExists nbPath = false) :
    (runNotebook env nbPath outDir).2 = .error .notFound ∧
    (runNotebook env nbPath outDir).1 = [.statted nbPath] ∧
    writtenFiles (runNotebook env nbPath outDir).1 = [] ∧
    enginePaths (runNotebook env nbPath outDir).1 = [] := by
  simp [runNotebook, h, writtenFiles, enginePaths]

/-- Witness for C5: the sample notebook in the no-files environment fails with
the not-found error. -/
theorem missing_file_no_output_witness :
    envNone.fileExists samplePath = false ∧
    (runNotebook envNone samplePath sampleOut).2 = .error .notFound :=
  ⟨rfl, (missing_file_no_output envNone samplePath sampleOut rfl).1⟩

/-- C6: on an empty configured list the process exits with status 2 and the
event trace is empty: no existence check, no read, no engine invocation, no
directory creation and no file write. -/
theorem empty_list_exit_two (env : Env) (base : FPath) (allowErrors : Bool) :
    mainRun env [] base allowErrors = ([], 2) := by
  simp [mainRun]

/-- C7: the worker pool is sized at `min 2` of the parallel-subset size, which
equals `min 2 N`: size 1 for a single-notebook list, size 2 for any list of
two or more. -/
theorem pool_size_min_two (xs : List String) :
    poolSize xs = min 2 xs.length ∧
    (xs.length = 1 → poolSize xs = 1) ∧
    (2 ≤ xs.length → poolSize xs = 2) := by
  have h : (parPart xs).length = min 2 xs.length := by
    simp only [parPart, List.length_drop]
    omega
  refine ⟨?_, fun h1 => ?_, fun h2 => ?_⟩ <;> simp only [poolSize, h] <;> omega

/-- Witness for C7 at lists of length 1 and 3. -/
theorem pool_size_min_two_witness :
    poolSize ["a"] = 1 ∧ poolSize ["a", "b", "c"] = 2 :=
  ⟨(pool_size_min_two ["a"]).2.1 rfl,
   (pool_size_min_two ["a", "b", "c"]).2.2 (by decide)⟩

/-- C3: when the sequential subset splits as succeeding notebooks, then a
failing one, the batch halts there: the process exits with status 1 and the
notebooks attempted are exactly the succeeding ones and the failing one — no
later sequential notebook and no parallel notebook is started. -/
theorem seq_failure_halts (env : Env) (notebooks : List String) (base : FPath)
    (allowErrors : Bool) (good : List String) (bad : String) (rest : List String)
    (hsplit : seqPart notebooks = good ++ bad :: rest)
    (hok : ∀ nb ∈ good,
      isErr (runNotebook env (resolveEntry base (parsePath nb)) (outDirOf base)).2 = false)
    (hfail :
      isErr (runNotebook env (resolveEntry base (parsePath bad)) (outDirOf base)).2 = true) :
    (mainRun env notebooks base allowErrors).2 = 1 ∧
    attemptedPaths (mainRun env notebooks base allowErrors).1 =
      (good ++ [bad]).map (fun nb => resolveEntry base (parsePath nb)) := by
  have hne : notebooks ≠ [] := by
    intro h0
    rw [h0] at hsplit
    simp [seqPart] at hsplit
  have hseq := runSeq_halts env base (outDirOf base) good bad rest hok hfail
  rw [← hsplit] at hseq
  have hm : mainRun env notebooks base allowErrors =
      (List.flatten ((good ++ [bad]).map
        (fun nb => (runNotebook env (resolveEntry base (parsePath nb)) (outDirOf base)).1)),
       1) := by
    simp [mainRun, hne, hseq]
  refine ⟨by rw [hm], ?_⟩
  rw [hm]
  exact attemptedPaths_flat_runs env base (outDirOf base) (good ++ [bad])

/-- Witness for C3: with no files present, the first sequential notebook of a
three-notebook list fails, the exit status is 1 and only that notebook is
attempted. -/
theorem seq_failure_halts_witness :
    (mainRun envNone ["a.ipynb", "b.ipynb", "c.ipynb"] base0 false).2 = 1 ∧
    attemptedPaths (mainRun envNone ["a.ipynb", "b.ipynb", "c.ipynb"] base0 false).1 =
      [resolveEntry base0 (parsePath "a.ipynb")] := by
  have h := seq_failure_halts envNone ["a.ipynb", "b.ipynb", "c.ipynb"] base0 false
    [] "a.ipynb" [] (by decide) (by decide) (by decide)
  exact ⟨h.1, by simpa using h.2⟩

/-- C4: once the sequential subset has fully succeeded, every parallel task is
submitted and drained: each parallel notebook is attempted whatever happened
to its sibling, each successful one has its executed copy written, the
process exits with a non-zero status exactly when at least one parallel task
raised and the error-tolerance flag is disabled, and the exit status is 0 or 1. -/
theorem par_drain_and_exit (env : Env) (notebooks : List String) (base : FPath)
    (allowErrors : Bool) (hne : notebooks ≠ [])
    (hseqok : ∀ nb ∈ seqPart notebooks,
      isErr (runNotebook env (resolveEntry base (parsePath nb)) (outDirOf base)).2 = false) :
    (∀ nb ∈ parPart notebooks,
      Event.statted (resolveEntry base (parsePath nb)) ∈
        (mainRun env notebooks base allowErrors).1) ∧
    (∀ nb ∈ parPart notebooks, ∀ v : FPath,
      (runNotebook env (resolveEntry base (parsePath nb)) (outDirOf base)).2 = .ok v →
      Event.fileWritten v ∈ (mainRun env notebooks base allowErrors).1) ∧
    ((mainRun env notebooks base allowErrors).2 ≠ 0 ↔
      (∃ nb ∈ parPart notebooks,
        isErr (runNotebook env (resolveEntry base (parsePath nb)) (outDirOf base)).2 = true)
      ∧ allowErrors = false) ∧
    ((mainRun env notebooks base allowErrors).2 = 0 ∨
      (mainRun env notebooks base allowErrors).2 = 1) := by
  have hpar := parPart_ne_nil notebooks hne
  have hseq := runSeq_all_ok env base (outDirOf base) (seqPart notebooks) hseqok
  have hmain : mainRun env notebooks base allowErrors =
      (List.flatten ((seqPart notebooks).map
        (fun nb => (runNotebook env (resolveEntry base (parsePath nb)) (outDirOf base)).1)) ++
        parEvents env base (parPart notebooks),
       if parHadError env base (parPart notebooks) && !allowErrors then 1 else 0) := by
    simp [mainRun, hne, hseq, hpar]
  refine ⟨?_, ?_, ?_, ?_⟩
  · intro nb hnb
    rw [hmain]
    refine List.mem_append_right _ ?_
    simp only [parEvents, List.mem_flatten]
    exact ⟨_, List.mem_map_of_mem _ hnb, statted_self_mem env _ _⟩
  · intro nb hnb v hv
    rw [hmain]
    refine List.mem_append_right _ ?_
    simp only [parEvents, List.mem_flatten]
    exact ⟨_, List.mem_map_of_mem _ hnb, runNotebook_ok_written env _ _ v hv⟩
  · have hexit : (mainRun env notebooks base allowErrors).2 =
        if (parHadError env base (parPart notebooks) && !allowErrors) = true
        then 1 else 0 := by
      rw [hmain]
    have hiff : (parHadError env base (parPart notebooks) && !allowErrors) = true ↔
        (∃ nb ∈ parPart notebooks,
          isErr (runNotebook env (resolveEntry base (parsePath nb)) (outDirOf base)).2 = true)
        ∧ allowErrors = false := by
      rw [Bool.and_eq_true, Bool.not_eq_true']
      rw [parHadError, List.any_eq_true]
    rw [hexit]
    constructor
    · intro h
      by_cases hb : (parHadError env base (parPart notebooks) && !allowErrors) = true
      · exact hiff.mp hb
      · rw [if_neg hb] at h
        exact absurd rfl h
    · intro h
      rw [if_pos (hiff.mpr h)]
      exact one_ne_zero
  · have hexit : (mainRun env notebooks base allowErrors).2 =
        if (parHadError env base (parPart notebooks) && !allowErrors) = true
        then 1 else 0 := by
      rw [hmain]
    rw [hexit]
    by_cases hb : (parHadError env base (parPart notebooks) && !allowErrors) = true
    · rw [if_pos hb]
      exact Or.inr rfl
    · rw [if_neg hb]
      exact Or.inl rfl

/-- Witness for C4: with two parallel notebooks of which exactly the first
raises a cell error, the second's executed copy is still written and the exit
status is non-zero. -/
theorem par_drain_and_exit_witness :
    Event.fileWritten (executedPath (outDirOf base0)
        (resolveEntry base0 (parsePath "b.ipynb"))) ∈
      (mainRun envOneFail ["a.ipynb", "b.ipynb"] base0 false).1 ∧
    (mainRun envOneFail ["a.ipynb", "b.ipynb"] base0 false).2 ≠ 0 := by
  have h := par_drain_and_exit envOneFail ["a.ipynb", "b.ipynb"] base0 false
    (by decide) (by decide)
  refine ⟨h.2.1 "b.ipynb" (by decide) _ rfl, h.2.2.1.mpr ⟨⟨"a.ipynb", by decide, by decide⟩, rfl⟩⟩

/-- C8: any two distinct notebooks of the configured parallel subset write to
distinct output files, whichever of the two status suffixes each of them gets,
for every base directory. -/
theorem par_outputs_distinct (a b : String) (ha : a ∈ parPart NOTEBOOKS)
    (hb : b ∈ parPart NOTEBOOKS) (hab : a ≠ b) (base : FPath) :
    executedPath (outDirOf base) (resolveEntry base (parsePath a)) ≠
      executedPath (outDirOf base) (resolveEntry base (parsePath b)) ∧
    failedPath (outDirOf base) (resolveEntry base (parsePath a)) ≠
      failedPath (outDirOf base) (resolveEntry base (parsePath b)) ∧
    executedPath (outDirOf base) (resolveEntry base (parsePath a)) ≠
      failedPath (outDirOf base) (resolveEntry base (parsePath b)) := by
  have hpar : parPart NOTEBOOKS =
      ["code/04a_modeling_lr.ipynb", "code/04b_modeling_lr.ipynb"] := by decide
  rw [hpar] at ha hb
  have e1 : parsePath "code/04a_modeling_lr.ipynb" =
      ⟨false, ["code", "04a_modeling_lr.ipynb"]⟩ := by decide
  have e2 : parsePath "code/04b_modeling_lr.ipynb" =
      ⟨false, ["code", "04b_modeling_lr.ipynb"]⟩ := by decide
  simp only [List.mem_cons, List.not_mem_nil, or_false] at ha hb
  rcases ha with ha | ha <;> rcases hb with hb | hb
  · exact absurd (ha.trans hb.symm) hab
  · subst ha; subst hb
    refine ⟨?_, ?_, ?_⟩
    · rw [e1, e2, executedPath_resolved, executedPath_resolved]
      exact outName_ne _ _ _ _ (by decide)
    · rw [e1, e2, failedPath_resolved, failedPath_resolved]
      exact outName_ne _ _ _ _ (by decide)
    · rw [e1, e2, executedPath_resolved, failedPath_resolved]
      exact outName_ne _ _ _ _ (by decide)
  · subst ha; subst hb
    refine ⟨?_, ?_, ?_⟩
    · rw [e1, e2, executedPath_resolved, executedPath_resolved]
      exact outName_ne _ _ _ _ (by decide)
    · rw [e1, e2, failedPath_resolved, failedPath_resolved]
      exact outName_ne _ _ _ _ (by decide)
    · rw [e1, e2, executedPath_resolved, failedPath_resolved]
      exact outName_ne _ _ _ _ (by decide)
  · exact absurd (ha.trans hb.symm) hab

/-- Witness for C8 at the two configured parallel notebooks and the sample
base directory. -/
theorem par_outputs_distinct_witness :
    executedPath (outDirOf base0)
        (resolveEntry base0 (parsePath "code/04a_modeling_lr.ipynb")) ≠
      executedPath (outDirOf base0)
        (resolveEntry base0 (parsePath "code/04b_modeling_lr.ipynb")) :=
  (par_outputs_distinct "code/04a_modeling_lr.ipynb" "code/04b_modeling_lr.ipynb"
    (by decide) (by decide) (by decide) base0).1

/-- C10: when the current working directory is absolute, every path on which
the execute-and-save operation is started — in the sequential phase and in the
parallel phase alike — is absolute; an already absolute entry is passed
unchanged, and a relative entry is resolved by joining it onto the working
directory. -/
theorem resolved_paths_absolute (env : Env) (notebooks : List String) (base : FPath)
    (allowErrors : Bool) (hbase : base.absolute = true) :
    (∀ p : FPath,
      Event.statted p ∈ (mainRun env notebooks base allowErrors).1 →
        p.absolute = true) ∧
    (∀ nb : String, (parsePath nb).absolute = true →
      resolveEntry base (parsePath nb) = parsePath nb) ∧
    (∀ nb : String, (parsePath nb).absolute = false →
      resolveEntry base (parsePath nb) =
        ⟨base.absolute, base.parts ++ (parsePath nb).parts⟩) := by
  refine ⟨?_, fun nb h => by simp [resolveEntry, h], fun nb h => by simp [resolveEntry, h]⟩
  intro p hp
  by_cases hne : notebooks = []
  · rw [hne] at hp
    simp [mainRun] at hp
  · rcases hrs : runSeq env base (outDirOf base) (seqPart notebooks) with ⟨E, c⟩
    have hfromSeq : Event.statted p ∈ E → p.absolute = true := by
      intro hmem
      obtain ⟨nb, _, hres⟩ := statted_runSeq env base (outDirOf base) (seqPart notebooks) p
        (by rw [hrs]; exact hmem)
      rw [hres]
      exact resolveEntry_absolute base _ hbase
    have hfromPar :
        Event.statted p ∈ parEvents env base (parPart notebooks) → p.absolute = true := by
      intro hmem
      obtain ⟨nb, _, hres⟩ := statted_parEvents env base (parPart notebooks) p hmem
      rw [hres]
      exact resolveEntry_absolute base _ hbase
    cases c with
    | some code =>
        have hm : (mainRun env notebooks base allowErrors).1 = E := by
          simp [mainRun, hne, hrs]
        rw [hm] at hp
        exact hfromSeq hp
    | none =>
        by_cases hpp : parPart notebooks = []
        · have hm : (mainRun env notebooks base allowErrors).1 = E := by
            simp [mainRun, hne, hrs, hpp]
          rw [hm] at hp
          exact hfromSeq hp
        · have hm : (mainRun env notebooks base allowErrors).1 =
              E ++ parEvents env base (parPart notebooks) := by
            simp [mainRun, hne, hrs, hpp]
          rw [hm] at hp
          rcases List.mem_append.mp hp with h1 | h2
          · exact hfromSeq h1
          · exact hfromPar h2

/-- Witness for C10: an absolute entry is passed unchanged. -/
theorem resolved_paths_absolute_witness :
    resolveEntry base0 (parsePath "/abs/nb.ipynb") = parsePath "/abs/nb.ipynb" :=
  (resolved_paths_absolute envAllOk ["x.ipynb"] base0 false rfl).2.1
    "/abs/nb.ipynb" (by decide)

end RunNote
